import Mathlib

/-!
Verification of the session-scoped, time-expiring file store of
Smart-Shipping-BackEnd (`src/server.js`).  The source holds four server
variants, separated by document markers:

* `Disk`  — lines 1–244: Cloudinary blob store, per-session `files.json`
  on disk, cleanup keyed to the `files.json` mtime, TTL 10 min.
* `Mem`   — lines 244–595: Cloudinary blob store, in-memory `sessionData`
  map with a per-item `createdAt`, cleanup filters by `createdAt`,
  TTL 5 min.
* `Disk2` — lines 596–897: local-disk blob store, cleanup keyed to the
  session folder ctime, TTL 10 min.
* `Lan`   — lines 898–1250: session id is the caller's LAN IPv4 address,
  local-disk blob store, cleanup removes every folder unconditionally,
  TTL constant 10 min.

Each namespace below shallowly embeds the state and the operations of one
variant.  Node.js runs handlers on a single event loop: synchronous code
between two `await` points never interleaves with other handlers, so every
synchronous block (the read-modify-write of `files.json`, the push into
`sessionData`, one whole cleanup-tick body) is modelled as one atomic step.
-/

set_option autoImplicit false

namespace SmartShipping

/-- Predicate of the session-token regex `/^[a-f0-9]{16}$/` used by the
session middleware of the `Disk` and `Mem` variants (server.js:51,286). -/
def isHexTokenChar (c : Char) : Bool :=
  (('a' ≤ c) && (c ≤ 'f')) || (('0' ≤ c) && (c ≤ '9'))

/-- Test of the full token against `/^[a-f0-9]{16}$/` (server.js:51,286). -/
def isSessionRoute (s : String) : Bool :=
  (s.length == 16) && s.toList.all isHexTokenChar

/-- The session middleware's resolution of `req.sessionId`
(server.js:284–309): the first URL path segment is adopted when it matches
the strict 16-lowercase-hex pattern; otherwise the cookie value is used
when present, else a freshly generated random id.  `fresh` stands for the
value `generateSessionId()` would produce; generation never fails. -/
def resolveSession (urlSeg : String) (cookie : Option String) (fresh : String) : String :=
  if isSessionRoute urlSeg then urlSeg else cookie.getD fresh

/-! ## `Mem` variant: in-memory `sessionData` registry (server.js:244–595) -/

namespace Mem

/-- `EXPIRATION_TIME = 5 * 60 * 1000` milliseconds (server.js:254). -/
def EXPIRATION_TIME : Nat := 5 * 60 * 1000

/-- The object pushed into `sessionData[sessionId]` (server.js:342–349). -/
structure FileItem where
  url : String
  name : String
  public_id : String
  resource_type : String
  format : String
  createdAt : Nat
  deriving DecidableEq, Repr

/-- The `sessionData` object: an insertion-ordered map from session id to
its item list (server.js:256). -/
abbrev Registry := List (String × List FileItem)

/-- Property lookup `sessionData[sessionId]` (server.js:360). -/
def lookup : Registry → String → Option (List FileItem)
  | [], _ => none
  | (k, fs) :: rest, sid => if k = sid then some fs else lookup rest sid

/-- The result object delivered by the Cloudinary upload callback
(server.js:328–338). -/
structure CloudResult where
  secure_url : String
  public_id : String
  resource_type : String
  format : String
  deriving DecidableEq, Repr

/-- The item literal pushed after the awaited upload resolves
(server.js:342–349): `createdAt` is `Date.now()` evaluated at that push,
i.e. the time `t` at which the backend confirmed the blob. -/
def mkItem (res : CloudResult) (name : String) (t : Nat) : FileItem :=
  { url := res.secure_url
    name := name
    public_id := res.public_id
    resource_type := res.resource_type
    format := res.format
    createdAt := t }

/-- The registry mutation of `POST /upload/:sessionId` after the awaited
Cloudinary upload succeeds (server.js:340–349):
`if (!sessionData[sessionId]) sessionData[sessionId] = [];`
then `sessionData[sessionId].push(item)`.  The block has no `await`
inside, so it is one atomic event-loop step. -/
def upload (sid : String) (it : FileItem) : Registry → Registry
  | [] => [(sid, [it])]
  | (k, fs) :: rest =>
      if k = sid then (k, fs ++ [it]) :: rest else (k, fs) :: upload sid it rest

/-- One cleanup tick of the `Mem` variant (server.js:568–591): for every
session, keep `validFiles = files.filter(now - createdAt <= TTL)`; delete
the map entry when `validFiles` is empty. -/
def sweep (now : Nat) : Registry → Registry
  | [] => []
  | (sid, files) :: rest =>
      let valid := files.filter fun f => decide (now - f.createdAt ≤ EXPIRATION_TIME)
      if valid.length = 0 then sweep now rest else (sid, valid) :: sweep now rest

/-- The expired items a cleanup tick hands to `cloudinary.api.delete_resources`
(server.js:571–577), concatenated in session order. -/
def sweepRemoved (now : Nat) : Registry → List FileItem
  | [] => []
  | (_, files) :: rest =>
      files.filter (fun f => decide (EXPIRATION_TIME < now - f.createdAt))
        ++ sweepRemoved now rest

/-- One cleanup tick with an explicit backend-failure oracle
(server.js:568–591): `apiFails ids` says whether the awaited
`cloudinary.api.delete_resources(ids)` call rejects.  The rejection is
caught by the surrounding `try/catch`, which only logs
`"Erro ao deletar arquivos:"`; the registry update below the `try/catch`
runs unconditionally, and the `for … of Object.entries` loop continues
with the next session.  Returns the updated registry and the error log. -/
def sweepF (apiFails : List String → Bool) (now : Nat) :
    Registry → Registry × List String
  | [] => ([], [])
  | (sid, files) :: rest =>
      let expired := files.filter fun f => decide (EXPIRATION_TIME < now - f.createdAt)
      let valid := files.filter fun f => decide (now - f.createdAt ≤ EXPIRATION_TIME)
      let publicIds := expired.map (·.public_id)
      let errs :=
        if publicIds.isEmpty then []
        else if apiFails publicIds then ["Erro ao deletar arquivos:"] else []
      let r := sweepF apiFails now rest
      ((if valid.length = 0 then r.1 else (sid, valid) :: r.1), errs ++ r.2)

/-- `GET /:sessionId` (server.js:358–368): responds 404 ("Sessão não
encontrada") when `sessionData[sessionId]` is absent or empty; otherwise
the item list is rendered.  `none` stands for the 404 outcome. -/
def listFiles (reg : Registry) (sid : String) : Option (List FileItem) :=
  match lookup reg sid with
  | none => none
  | some fs => if fs.length = 0 then none else some fs

/-- The `limits: { fileSize: 20 * 1024 * 1024 }` multer configuration
(server.js:316–319). -/
def uploadLimit : Option Nat := some (20 * 1024 * 1024)

/-- Outcome of one `POST /upload/:sessionId` request. -/
inductive UploadResult where
  | payloadTooLarge
  | noFile
  | success (name : String)
  deriving DecidableEq, Repr

/-- Size admission performed by multer while streaming the body: a file
strictly larger than the configured `fileSize` limit aborts the request
with `LIMIT_FILE_SIZE` before the route handler runs.  An absent limit
(`multer({ storage })`, server.js:1228) never rejects. -/
def exceedsLimit (limit : Option Nat) (size : Nat) : Bool :=
  match limit with
  | none => false
  | some l => decide (l < size)

/-- One `POST /upload/:sessionId` request (server.js:316–356) against
registry `reg`: `file` is the incoming file's name and byte size (or
`none` when no file field was sent), `res` the Cloudinary result the
backend would return, `t` the time at which the backend confirms.  The
third component counts backend (Cloudinary) calls made. -/
def handleUpload (sid : String) (file : Option (String × Nat))
    (res : CloudResult) (t : Nat) (reg : Registry) :
    UploadResult × Registry × Nat :=
  match file with
  | none => (UploadResult.noFile, reg, 0)
  | some (name, size) =>
      if exceedsLimit uploadLimit size then (UploadResult.payloadTooLarge, reg, 0)
      else (UploadResult.success name, upload sid (mkItem res name t) reg, 1)

/-- Registry states reachable from the initial empty `sessionData = {}`
by upload completions and cleanup ticks. -/
inductive Reachable : Registry → Prop
  | empty : Reachable []
  | upload (sid : String) (it : FileItem) {reg : Registry} :
      Reachable reg → Reachable (upload sid it reg)
  | sweep (now : Nat) {reg : Registry} :
      Reachable reg → Reachable (sweep now reg)

end Mem

/-! ## `Disk` variant: `files.json` registry keyed by mtime (server.js:1–244) -/

namespace Disk

/-- `EXPIRATION_TIME = 10 * 60 * 1000` milliseconds (server.js:16). -/
def EXPIRATION_TIME : Nat := 10 * 60 * 1000

/-- One entry of a session's `files.json` (server.js:171–177).  The stored
object has no timestamp field; `createdAt` records, as model instrumentation,
the wall-clock time at which the append happened (the time the claims call
the item's `createdAt`). -/
structure DiskItem where
  url : String
  name : String
  public_id : String
  resource_type : String
  format : String
  createdAt : Nat
  deriving DecidableEq, Repr

/-- One session folder holding a `files.json`: its item list and the
file's mtime, which `fs.writeFileSync` sets to the time of the latest
append (server.js:179, read at server.js:220–221). -/
structure DiskSession where
  items : List DiskItem
  mtime : Nat
  deriving DecidableEq, Repr

/-- The on-disk state: session folders (with a `files.json`) under
`FILES_DIR`, keyed by session id. -/
abbrev DiskRegistry := List (String × DiskSession)

/-- Folder lookup by session id. -/
def lookup : DiskRegistry → String → Option DiskSession
  | [], _ => none
  | (k, s) :: rest, sid => if k = sid then some s else lookup rest sid

/-- The item list of a session, `[]` when the folder is absent. -/
def itemsOf (reg : DiskRegistry) (sid : String) : List DiskItem :=
  match lookup reg sid with
  | none => []
  | some s => s.items

/-- The registry mutation of `POST /upload` after the awaited Cloudinary
upload succeeds (server.js:163–179): read `files.json` (or start from
`[]`), push the new entry, `fs.writeFileSync` — which stamps the file's
mtime with the current time `t`.  The whole read-modify-write is
synchronous (no `await` inside), hence one atomic event-loop step. -/
def upload (sid : String) (it : DiskItem) (t : Nat) : DiskRegistry → DiskRegistry
  | [] => [(sid, { items := [it], mtime := t })]
  | (k, s) :: rest =>
      if k = sid then (k, { items := s.items ++ [it], mtime := t }) :: rest
      else (k, s) :: upload sid it t rest

/-- One cleanup tick of the `Disk` variant restricted to folders that have
a `files.json` (server.js:215–227): a folder is removed — after destroying
each file at Cloudinary — exactly when `now - mtime > EXPIRATION_TIME`;
nothing inspects individual items. -/
def sweep (now : Nat) (reg : DiskRegistry) : DiskRegistry :=
  reg.filter fun p => decide (now - p.2.mtime ≤ EXPIRATION_TIME)

/-- One cleanup tick with a backend-failure oracle (server.js:219–227):
for an expired folder the code runs
`for (const file of files) await cloudinary.uploader.destroy(...)` and
only then `fs.rmSync(dirPath)`.  The `for` loop is not wrapped in its own
`try/catch`: a rejected `destroy` aborts the async callback before
`fs.rmSync`, so the folder survives whenever any of its items' destroys
fails.  Each folder runs in its own async `forEach` callback, so one
folder's failure does not stop the others. -/
def sweepF (fails : String → Bool) (now : Nat) (reg : DiskRegistry) : DiskRegistry :=
  reg.filter fun p =>
    decide (now - p.2.mtime ≤ EXPIRATION_TIME) || p.2.items.any (fun f => fails f.public_id)

/-- The multer configuration `limits: { fileSize: 100 * 1024 * 1024 }`
(server.js:140–143). -/
def uploadLimit : Option Nat := some (100 * 1024 * 1024)

end Disk

/-! ## `Disk2` variant: local disk, folder-ctime cleanup (server.js:596–897) -/

namespace Disk2

/-- `EXPIRATION_TIME = 10 * 60 * 1000` milliseconds (server.js:607). -/
def EXPIRATION_TIME : Nat := 10 * 60 * 1000

/-- The multer configuration `limits: { fileSize: 100 * 1024 * 1024 }`
(server.js:848–851). -/
def uploadLimit : Option Nat := some (100 * 1024 * 1024)

end Disk2

/-! ## `Lan` variant: LAN-address sessions, unconditional cleanup
(server.js:898–1250) -/

namespace Lan

/-- `EXPIRATION_TIME = 10 * 60 * 1000` milliseconds (server.js:909),
used only as the `setInterval` period of the cleanup (server.js:1246). -/
def EXPIRATION_TIME : Nat := 10 * 60 * 1000

/-- `multer({ storage })` with no `limits` option (server.js:1228). -/
def uploadLimit : Option Nat := none

/-- The session folders under `FILES_DIR`, keyed by folder name, each
holding its stored file names. -/
abbrev DirState := List (String × List String)

/-- Folder lookup by name. -/
def lookupDir : DirState → String → Option (List String)
  | [], _ => none
  | (k, fs) :: rest, d => if k = d then some fs else lookupDir rest d

/-- One cleanup tick of the `Lan` variant (server.js:1238–1246):
`fs.readdir(FILES_DIR)` lists every session folder and `fs.rm` removes
each of them, recursively and unconditionally.  No timestamp, age or
`now` is consulted anywhere — the function does not even take a time. -/
def cleanupTick (dirs : DirState) : DirState :=
  (dirs.map Prod.fst).foldl (fun acc f => acc.filter fun d => !(d.1 == f)) dirs

end Lan

/-- The `EXPIRATION_TIME` constants of the four variants, in source
order (server.js:16, 254, 607, 909). -/
def variantTTLs : List Nat :=
  [Disk.EXPIRATION_TIME, Mem.EXPIRATION_TIME, Disk2.EXPIRATION_TIME, Lan.EXPIRATION_TIME]

/-! ## Concrete states used by witnesses and counterexamples -/

/-- A sample Cloudinary result. -/
def Mem.resW : Mem.CloudResult :=
  { secure_url := "https://res.cloudinary.com/demo/w.png"
    public_id := "sess/w"
    resource_type := "image"
    format := "png" }

/-- A sample stored item, created at time 50. -/
def Mem.itemW : Mem.FileItem := Mem.mkItem Mem.resW "w.png" 50

/-- A sample stored item, created at time 0. -/
def Mem.itemZ : Mem.FileItem := Mem.mkItem Mem.resW "z.png" 0

/-- A sample stored item, created at time 200000. -/
def Mem.itemY : Mem.FileItem := Mem.mkItem Mem.resW "y.png" 200000

/-- A `Disk`-variant item appended at time 0. -/
def Disk.itemA : Disk.DiskItem :=
  { url := "https://res.cloudinary.com/demo/a.png", name := "a.png"
    public_id := "sess/a", resource_type := "image", format := "png"
    createdAt := 0 }

/-- A `Disk`-variant item appended at time 500000. -/
def Disk.itemB : Disk.DiskItem :=
  { url := "https://res.cloudinary.com/demo/b.png", name := "b.png"
    public_id := "sess/b", resource_type := "image", format := "png"
    createdAt := 500000 }

/-- A `Disk` session after uploading `itemA` at time 0 into an empty store. -/
def Disk.regA : Disk.DiskRegistry := Disk.upload "0123456789abcdef" Disk.itemA 0 []

/-- The same session after a second upload, `itemB`, at time 500000:
the `files.json` now holds both items and its mtime is 500000. -/
def Disk.regAB : Disk.DiskRegistry :=
  Disk.upload "0123456789abcdef" Disk.itemB 500000 Disk.regA

/-! ## Helper lemmas -/

theorem Mem.lookup_upload_self (sid : String) (it : Mem.FileItem) (reg : Mem.Registry) :
    Mem.lookup (Mem.upload sid it reg) sid
      = some ((Mem.lookup reg sid).getD [] ++ [it]) := by
  induction reg with
  | nil => simp [Mem.upload, Mem.lookup]
  | cons p rest ih =>
      obtain ⟨k, fs⟩ := p
      by_cases h : k = sid
      · subst h
        simp [Mem.upload, Mem.lookup]
      · simp [Mem.upload, Mem.lookup, h, ih]

theorem Mem.lookup_upload_other (sid sid' : String) (it : Mem.FileItem)
    (reg : Mem.Registry) (h : sid' ≠ sid) :
    Mem.lookup (Mem.upload sid it reg) sid' = Mem.lookup reg sid' := by
  induction reg with
  | nil =>
      have hns : ¬ sid = sid' := fun hc => h hc.symm
      simp [Mem.upload, Mem.lookup, hns]
  | cons p rest ih =>
      obtain ⟨k, fs⟩ := p
      by_cases hk : k = sid
      · subst hk
        have : ¬ k = sid' := fun hc => h hc.symm
        simp [Mem.upload, Mem.lookup, this]
      · by_cases hk' : k = sid'
        · subst hk'
          simp [Mem.upload, Mem.lookup, hk]
        · simp [Mem.upload, Mem.lookup, hk, hk', ih]

theorem Mem.lookup_foldl_upload (sid : String) :
    ∀ (l : List Mem.FileItem) (p : Mem.FileItem) (reg : Mem.Registry),
      Mem.lookup (List.foldl (fun r it => Mem.upload sid it r) reg (p :: l)) sid
        = some ((Mem.lookup reg sid).getD [] ++ p :: l) := by
  intro l
  induction l with
  | nil =>
      intro p reg
      simpa using Mem.lookup_upload_self sid p reg
  | cons q l ih =>
      intro p reg
      have h1 := ih q (Mem.upload sid p reg)
      rw [show List.foldl (fun r it => Mem.upload sid it r) reg (p :: q :: l)
            = List.foldl (fun r it => Mem.upload sid it r) (Mem.upload sid p reg) (q :: l)
          from rfl]
      rw [h1, Mem.lookup_upload_self]
      simp

theorem Mem.mem_sweep_valid (now : Nat) (reg : Mem.Registry) :
    ∀ e ∈ Mem.sweep now reg, ∀ f ∈ e.2,
      now - f.createdAt ≤ Mem.EXPIRATION_TIME := by
  induction reg with
  | nil => simp [Mem.sweep]
  | cons p rest ih =>
      obtain ⟨k, fs⟩ := p
      intro e he f hf
      simp only [Mem.sweep] at he
      by_cases hl :
          (fs.filter fun f => decide (now - f.createdAt ≤ Mem.EXPIRATION_TIME)).length = 0
      · rw [if_pos hl] at he
        exact ih e he f hf
      · rw [if_neg hl] at he
        rcases List.mem_cons.mp he with h | h
        · subst h
          have := List.of_mem_filter hf
          exact of_decide_eq_true this
        · exact ih e h f hf

theorem Mem.mem_sweep_orig (now : Nat) (reg : Mem.Registry) :
    ∀ e ∈ Mem.sweep now reg, ∀ f ∈ e.2, ∃ fs, (e.1, fs) ∈ reg ∧ f ∈ fs := by
  induction reg with
  | nil => simp [Mem.sweep]
  | cons p rest ih =>
      obtain ⟨k, fs⟩ := p
      intro e he f hf
      simp only [Mem.sweep] at he
      by_cases hl :
          (fs.filter fun f => decide (now - f.createdAt ≤ Mem.EXPIRATION_TIME)).length = 0
      · rw [if_pos hl] at he
        obtain ⟨fs', hmem, hf'⟩ := ih e he f hf
        exact ⟨fs', List.mem_cons_of_mem _ hmem, hf'⟩
      · rw [if_neg hl] at he
        rcases List.mem_cons.mp he with h | h
        · subst h
          exact ⟨fs, List.mem_cons_self _ _, List.mem_of_mem_filter hf⟩
        · obtain ⟨fs', hmem, hf'⟩ := ih e h f hf
          exact ⟨fs', List.mem_cons_of_mem _ hmem, hf'⟩

theorem Mem.sweepF_fst (apiFails : List String → Bool) (now : Nat) (reg : Mem.Registry) :
    (Mem.sweepF apiFails now reg).1 = Mem.sweep now reg := by
  induction reg with
  | nil => simp [Mem.sweepF, Mem.sweep]
  | cons p rest ih =>
      obtain ⟨k, fs⟩ := p
      simp only [Mem.sweepF, Mem.sweep]
      by_cases hl :
          (fs.filter fun f => decide (now - f.createdAt ≤ Mem.EXPIRATION_TIME)).length = 0
      · rw [if_pos hl, if_pos hl, ih]
      · rw [if_neg hl, if_neg hl, ih]

theorem Mem.mem_upload_ne_nil (sid : String) (it : Mem.FileItem) (reg : Mem.Registry)
    (h : ∀ e ∈ reg, e.2 ≠ []) :
    ∀ e ∈ Mem.upload sid it reg, e.2 ≠ [] := by
  induction reg with
  | nil =>
      intro e he
      simp only [Mem.upload] at he
      rcases List.mem_cons.mp he with h' | h'
      · subst h'; simp
      · simp at h'
  | cons p rest ih =>
      obtain ⟨k, fs⟩ := p
      intro e he
      simp only [Mem.upload] at he
      by_cases hk : k = sid
      · rw [if_pos hk] at he
        rcases List.mem_cons.mp he with h' | h'
        · subst h'; simp
        · exact h e (List.mem_cons_of_mem _ h')
      · rw [if_neg hk] at he
        rcases List.mem_cons.mp he with h' | h'
        · subst h'
          exact h (k, fs) (List.mem_cons_self _ _)
        · exact ih (fun e' he' => h e' (List.mem_cons_of_mem _ he')) e h'

theorem Mem.mem_sweep_ne_nil (now : Nat) (reg : Mem.Registry) :
    ∀ e ∈ Mem.sweep now reg, e.2 ≠ [] := by
  induction reg with
  | nil => simp [Mem.sweep]
  | cons p rest ih =>
      obtain ⟨k, fs⟩ := p
      intro e he
      simp only [Mem.sweep] at he
      by_cases hl :
          (fs.filter fun f => decide (now - f.createdAt ≤ Mem.EXPIRATION_TIME)).length = 0
      · rw [if_pos hl] at he
        exact ih e he
      · rw [if_neg hl] at he
        rcases List.mem_cons.mp he with h' | h'
        · subst h'
          intro hnil
          exact hl (by
            rw [show (fs.filter fun f => decide (now - f.createdAt ≤ Mem.EXPIRATION_TIME))
                  = ([] : List Mem.FileItem) from hnil]
            rfl)
        · exact ih e h'

theorem Disk.lookup_upload_self_disk (sid : String) (it : Disk.DiskItem) (t : Nat)
    (reg : Disk.DiskRegistry) :
    Disk.lookup (Disk.upload sid it t reg) sid
      = some { items := Disk.itemsOf reg sid ++ [it], mtime := t } := by
  induction reg with
  | nil => simp [Disk.upload, Disk.lookup, Disk.itemsOf]
  | cons p rest ih =>
      obtain ⟨k, s⟩ := p
      by_cases h : k = sid
      · subst h
        simp [Disk.upload, Disk.lookup, Disk.itemsOf]
      · simp [Disk.upload, Disk.lookup, Disk.itemsOf, h, ih]

theorem Disk.lookup_foldl_upload_disk (sid : String) :
    ∀ (l : List (Disk.DiskItem × Nat)) (p : Disk.DiskItem × Nat) (reg : Disk.DiskRegistry),
      Disk.lookup (List.foldl (fun r q => Disk.upload sid q.1 q.2 r) reg (p :: l)) sid
        = some { items := Disk.itemsOf reg sid ++ (p :: l).map Prod.fst
                 mtime := (l.getLastD p).2 } := by
  intro l
  induction l with
  | nil =>
      intro p reg
      simpa using Disk.lookup_upload_self_disk sid p.1 p.2 reg
  | cons q l ih =>
      intro p reg
      have h1 := ih q (Disk.upload sid p.1 p.2 reg)
      rw [show List.foldl (fun r q => Disk.upload sid q.1 q.2 r) reg (p :: q :: l)
            = List.foldl (fun r q => Disk.upload sid q.1 q.2 r)
                (Disk.upload sid p.1 p.2 reg) (q :: l) from rfl]
      rw [h1]
      have h2 : Disk.itemsOf (Disk.upload sid p.1 p.2 reg) sid
          = Disk.itemsOf reg sid ++ [p.1] := by
        simp [Disk.itemsOf, Disk.lookup_upload_self_disk]
      rw [h2]
      cases l with
      | nil => simp
      | cons a as => simp [List.getLastD, List.getLast_cons]

theorem Lan.foldl_filter_keys :
    ∀ (ks : List String) (acc : Lan.DirState), (∀ d ∈ acc, d.1 ∈ ks) →
      List.foldl (fun acc f => acc.filter fun d => !(d.1 == f)) acc ks = [] := by
  intro ks
  induction ks with
  | nil =>
      intro acc h
      cases acc with
      | nil => rfl
      | cons d rest => exact absurd (h d (List.mem_cons_self _ _)) (List.not_mem_nil _)
  | cons k ks ih =>
      intro acc h
      simp only [List.foldl_cons]
      apply ih
      intro d hd
      have hmem : d ∈ acc := List.mem_of_mem_filter hd
      have hne : d.1 ≠ k := by simpa using List.of_mem_filter hd
      rcases List.mem_cons.mp (h d hmem) with h' | h'
      · exact absurd h' hne
      · exact h'

/-! ## The claims -/

/-- C1 (amended): in the in-memory `sessionData` variant, immediately after
one sweep tick no item remaining in the registry has
`now - createdAt > EXPIRATION_TIME`.  (As stated over both cited variants
the claim fails: the `files.json` variant keys expiry to the mtime of the
whole file list, not to per-item age — see the counterexample.) -/
theorem C1_mem_sweep_no_expired :
    ∀ (now : Nat) (reg : Mem.Registry), ∀ e ∈ Mem.sweep now reg, ∀ f ∈ e.2,
      now - f.createdAt ≤ Mem.EXPIRATION_TIME :=
  fun now reg => Mem.mem_sweep_valid now reg

/-- C1 witness: a session swept at time 100 keeps its item created at 50,
and that item indeed satisfies the TTL bound. -/
theorem C1_witness : 100 - Mem.itemW.createdAt ≤ Mem.EXPIRATION_TIME :=
  C1_mem_sweep_no_expired 100 [("s", [Mem.itemW])] ("s", [Mem.itemW]) (by decide)
    Mem.itemW (by decide)

/-- C1 counterexample: in the `files.json` variant with TTL 600000 ms, a
session holding an item appended at time 0 and a second item appended at
time 500000 has mtime 500000; the sweep at time 650000 removes nothing,
yet the first item's age 650000 exceeds the TTL — an over-TTL item remains
right after the tick. -/
theorem C1_counterexample :
    Disk.sweep 650000 Disk.regAB = Disk.regAB
    ∧ Disk.itemA ∈ Disk.itemsOf (Disk.sweep 650000 Disk.regAB) "0123456789abcdef"
    ∧ Disk.EXPIRATION_TIME < 650000 - Disk.itemA.createdAt := by
  decide

/-- C2: N ≥ 1 upload completions against the same fresh session, arriving
in any completion order `p :: l`, leave the registry with exactly those N
items for that session — no append is lost to an overwrite.  Holds in both
cited variants because the post-`await` read-modify-write is synchronous,
hence a single atomic event-loop step. -/
theorem C2_concurrent_appends_preserved :
    (∀ (sid : String) (reg : Mem.Registry) (p : Mem.FileItem) (l : List Mem.FileItem),
      Mem.lookup reg sid = none →
      Mem.lookup (List.foldl (fun r it => Mem.upload sid it r) reg (p :: l)) sid
        = some (p :: l))
    ∧ (∀ (sid : String) (reg : Disk.DiskRegistry) (p : Disk.DiskItem × Nat)
        (l : List (Disk.DiskItem × Nat)),
      Disk.lookup reg sid = none →
      ∃ s, Disk.lookup (List.foldl (fun r q => Disk.upload sid q.1 q.2 r) reg (p :: l)) sid
          = some s ∧ s.items = (p :: l).map Prod.fst) := by
  constructor
  · intro sid reg p l h
    rw [Mem.lookup_foldl_upload sid l p reg, h]
    rfl
  · intro sid reg p l h
    refine ⟨_, Disk.lookup_foldl_upload_disk sid l p reg, ?_⟩
    simp [Disk.itemsOf, h]

/-- C2 witness: two uploads into a fresh session leave exactly those two
items, in both variants. -/
theorem C2_witness :
    Mem.lookup (List.foldl (fun r it => Mem.upload "s" it r) ([] : Mem.Registry)
        (Mem.itemZ :: [Mem.itemW])) "s" = some (Mem.itemZ :: [Mem.itemW])
    ∧ ∃ s, Disk.lookup (List.foldl (fun r q => Disk.upload "0123456789abcdef" q.1 q.2 r)
        ([] : Disk.DiskRegistry) ((Disk.itemA, 0) :: [(Disk.itemB, 500000)]))
        "0123456789abcdef" = some s
        ∧ s.items = ((Disk.itemA, 0) :: [(Disk.itemB, 500000)]).map Prod.fst :=
  ⟨C2_concurrent_appends_preserved.1 "s" [] Mem.itemZ [Mem.itemW] rfl,
   C2_concurrent_appends_preserved.2 "0123456789abcdef" [] (Disk.itemA, 0)
     [(Disk.itemB, 500000)] rfl⟩

/-- C3 (amended): in the in-memory variant, the item pushed after the
awaited backend confirmation carries `createdAt` equal to the confirmation
time `t`, the push leaves every previously stored item (and every other
session) unchanged, and the sweep only ever delivers items verbatim from
the input registry — so no later operation changes a stored item's
`createdAt`.  (As stated the claim fails for the `files.json` variant,
whose effective expiry clock is the files.json mtime, rewritten by every
later append — see the counterexample.) -/
theorem C3_mem_createdAt_stable :
    ∀ (sid : String) (res : Mem.CloudResult) (name : String) (t : Nat) (reg : Mem.Registry),
      ((Mem.mkItem res name t).createdAt = t
        ∧ Mem.lookup (Mem.upload sid (Mem.mkItem res name t) reg) sid
            = some ((Mem.lookup reg sid).getD [] ++ [Mem.mkItem res name t])
        ∧ ∀ sid', sid' ≠ sid →
            Mem.lookup (Mem.upload sid (Mem.mkItem res name t) reg) sid'
              = Mem.lookup reg sid')
      ∧ ∀ (now : Nat), ∀ e ∈ Mem.sweep now reg, ∀ f ∈ e.2,
          ∃ fs, (e.1, fs) ∈ reg ∧ f ∈ fs := by
  intro sid res name t reg
  refine ⟨⟨rfl, Mem.lookup_upload_self sid _ reg, ?_⟩, ?_⟩
  · intro sid' h
    exact Mem.lookup_upload_other sid sid' _ reg h
  · intro now e he f hf
    exact Mem.mem_sweep_orig now reg e he f hf

/-- C3 witness: an upload confirmed at time 50 stores `createdAt = 50`,
leaves the other session untouched, and the swept registry delivers the
other session's item verbatim. -/
theorem C3_witness :
    Mem.itemW.createdAt = 50
    ∧ Mem.lookup (Mem.upload "s" Mem.itemW [("s2", [Mem.itemZ])]) "s2"
        = Mem.lookup [("s2", [Mem.itemZ])] "s2"
    ∧ ∃ fs, ("s2", fs) ∈ ([("s2", [Mem.itemZ])] : Mem.Registry) ∧ Mem.itemZ ∈ fs := by
  have h := C3_mem_createdAt_stable "s" Mem.resW "w.png" 50 [("s2", [Mem.itemZ])]
  exact ⟨h.1.1, h.1.2.2 "s2" (by decide),
    h.2 100 ("s2", [Mem.itemZ]) (by decide) Mem.itemZ (by decide)⟩

/-- C3 counterexample: in the `files.json` variant, the item appended at
time 0 is evicted by a sweep at 650000 when it is alone (mtime 0), but the
same sweep retains it when a second item was appended at 500000 — the
later append rewrote the expiry clock (the files.json mtime, 0 ↦ 500000)
of the already-stored item. -/
theorem C3_counterexample :
    Disk.sweep 650000 Disk.regA = []
    ∧ Disk.itemA ∈ Disk.itemsOf (Disk.sweep 650000 Disk.regAB) "0123456789abcdef"
    ∧ (Disk.lookup Disk.regA "0123456789abcdef").map Disk.DiskSession.mtime = some 0
    ∧ (Disk.lookup Disk.regAB "0123456789abcdef").map Disk.DiskSession.mtime
        = some 500000 := by
  decide

/-- C4: with the in-memory variant's TTL of 300000 ms (300 s), a session
holding exactly one item created at time 0, swept at 301000 ms, yields
that item for blob cleanup, an empty registry (the emptied session is
deleted), and a subsequent `GET /:sessionId` answers 404. -/
theorem C4_eviction_example :
    ∀ (sid : String) (A : Mem.FileItem), A.createdAt = 0 →
      Mem.sweepRemoved 301000 [(sid, [A])] = [A]
      ∧ Mem.sweep 301000 [(sid, [A])] = []
      ∧ Mem.listFiles (Mem.sweep 301000 [(sid, [A])]) sid = none := by
  intro sid A h
  refine ⟨?_, ?_, ?_⟩
  · simp [Mem.sweepRemoved, h, Mem.EXPIRATION_TIME]
  · simp [Mem.sweep, h, Mem.EXPIRATION_TIME]
  · simp [Mem.sweep, Mem.listFiles, Mem.lookup, h, Mem.EXPIRATION_TIME]

/-- C4 witness: the example at the concrete item created at time 0. -/
theorem C4_witness :
    Mem.sweepRemoved 301000 [("s", [Mem.itemZ])] = [Mem.itemZ]
    ∧ Mem.sweep 301000 [("s", [Mem.itemZ])] = []
    ∧ Mem.listFiles (Mem.sweep 301000 [("s", [Mem.itemZ])]) "s" = none :=
  C4_eviction_example "s" Mem.itemZ rfl

/-- C5: an upload whose size exceeds the configured multer byte ceiling is
rejected as payload-too-large before the route handler runs: zero backend
(Cloudinary) calls and an unchanged registry.  (The LAN variant configures
no ceiling at all, so no upload there ever exceeds a configured ceiling
and the claim is vacuous for it.) -/
theorem C5_oversized_rejected :
    ∀ (L : Nat) (sid name : String) (size : Nat) (res : Mem.CloudResult) (t : Nat)
      (reg : Mem.Registry),
      Mem.uploadLimit = some L → L < size →
      Mem.handleUpload sid (some (name, size)) res t reg
        = (Mem.UploadResult.payloadTooLarge, reg, 0) := by
  intro L sid name size res t reg hL hsz
  simp [Mem.handleUpload, Mem.exceedsLimit, hL, hsz]

/-- C5 witness: a file of `20 MiB + 1` bytes is rejected with no backend
call and no registry mutation. -/
theorem C5_witness :
    Mem.handleUpload "s" (some ("big.bin", 20 * 1024 * 1024 + 1)) Mem.resW 50 []
      = (Mem.UploadResult.payloadTooLarge, [], 0) :=
  C5_oversized_rejected (20 * 1024 * 1024) "s" "big.bin" (20 * 1024 * 1024 + 1)
    Mem.resW 50 [] rfl (by decide)

/-- C6: session resolution is total (it returns an id, never an error):
a token matching the strict 16-lowercase-hex pattern is adopted as the
session id; any malformed token behaves exactly like an absent token — the
resolution equals the one for the empty path segment, i.e. falls back to
the cookie or, failing that, the freshly minted random id. -/
theorem C6_token_resolution_total :
    ∀ (tok : String) (cookie : Option String) (fresh : String),
      (isSessionRoute tok = true → resolveSession tok cookie fresh = tok)
      ∧ (isSessionRoute tok = false →
          resolveSession tok cookie fresh = resolveSession "" cookie fresh
          ∧ resolveSession tok cookie fresh = cookie.getD fresh) := by
  intro tok cookie fresh
  constructor
  · intro h
    simp [resolveSession, h]
  · intro h
    have h0 : isSessionRoute "" = false := by decide
    constructor <;> simp [resolveSession, h, h0]

/-- C6 witness: a well-formed 16-hex token is adopted; a malformed token
(`"../etc"`) resolves exactly like no token at all. -/
theorem C6_witness :
    resolveSession "0123456789abcdef" (some "c0c0c0c0c0c0c0c0") "f4e5"
        = "0123456789abcdef"
    ∧ resolveSession "../etc" (some "c0c0c0c0c0c0c0c0") "f4e5"
        = resolveSession "" (some "c0c0c0c0c0c0c0c0") "f4e5" := by
  have h1 := (C6_token_resolution_total "0123456789abcdef" (some "c0c0c0c0c0c0c0c0") "f4e5").1
  have h2 := (C6_token_resolution_total "../etc" (some "c0c0c0c0c0c0c0c0") "f4e5").2
  exact ⟨h1 (by decide), (h2 (by decide)).1⟩

/-- C7 (amended): in the in-memory variant, whatever the outcome of the
backend `delete_resources` calls, the swept registry is identical to the
failure-free sweep — the expired items are removed regardless, every other
session is still processed, and no over-TTL item ever remains to
re-surface.  (As stated the claim fails for the `files.json` variant,
where a `destroy` rejection aborts the folder cleanup before `fs.rmSync`
and the expired items stay in the registry — see the counterexample.) -/
theorem C7_mem_sweep_failure_isolated :
    ∀ (apiFails : List String → Bool) (now : Nat) (reg : Mem.Registry),
      (Mem.sweepF apiFails now reg).1 = Mem.sweep now reg
      ∧ ∀ e ∈ (Mem.sweepF apiFails now reg).1, ∀ f ∈ e.2,
          now - f.createdAt ≤ Mem.EXPIRATION_TIME := by
  intro apiFails now reg
  refine ⟨Mem.sweepF_fst apiFails now reg, ?_⟩
  intro e he f hf
  rw [Mem.sweepF_fst] at he
  exact Mem.mem_sweep_valid now reg e he f hf

/-- C7 witness: with an always-failing delete backend, sweeping a session
holding one expired item (age 301000) and one valid item (age 101000)
still removes the expired one, and the surviving item is within TTL. -/
theorem C7_witness :
    (Mem.sweepF (fun _ => true) 301000 [("s", [Mem.itemZ, Mem.itemY])]).1
        = Mem.sweep 301000 [("s", [Mem.itemZ, Mem.itemY])]
    ∧ 301000 - Mem.itemY.createdAt ≤ Mem.EXPIRATION_TIME := by
  have h := C7_mem_sweep_failure_isolated (fun _ => true) 301000
    [("s", [Mem.itemZ, Mem.itemY])]
  exact ⟨h.1, h.2 ("s", [Mem.itemY]) (by decide) Mem.itemY (by decide)⟩

/-- C7 counterexample: in the `files.json` variant, a session expired at
the tick (mtime 0, swept at 650000 > TTL 600000) is removed when every
backend destroy succeeds, but is left whole in the registry when the
destroy rejects — the expired item is NOT removed and re-surfaces. -/
theorem C7_counterexample :
    Disk.EXPIRATION_TIME < 650000 - Disk.itemA.createdAt
    ∧ Disk.sweep 650000 Disk.regA = []
    ∧ Disk.sweepF (fun _ => true) 650000 Disk.regA = Disk.regA
    ∧ Disk.itemA ∈ Disk.itemsOf (Disk.sweepF (fun _ => true) 650000 Disk.regA)
        "0123456789abcdef" := by
  decide

/-- C8 counterexample: the claim says two reference variants use a
300-second TTL; among the four `EXPIRATION_TIME` constants of the source
exactly one equals 300 seconds (the in-memory variant), not two. -/
theorem C8_counterexample :
    variantTTLs.count (300 * 1000) = 1 ∧ variantTTLs.count (300 * 1000) ≠ 2 := by
  decide

/-- C8 (amended): the TTL is 600 seconds (600000 ms) in three of the four
variants — the default — and one reference variant uses 300 seconds; each
variant holds it in the named constant `EXPIRATION_TIME`. -/
theorem C8_ttl_values :
    variantTTLs = [600 * 1000, 300 * 1000, 600 * 1000, 600 * 1000]
    ∧ variantTTLs.count (600 * 1000) = 3
    ∧ variantTTLs.count (300 * 1000) = 1 := by
  decide

/-- C9: in the in-memory variant, every registry state reachable from the
empty `sessionData` by upload completions and cleanup ticks maps each
present session id to a non-empty item list: an entry is created only
together with its first pushed item, and the sweep deletes entries whose
retained list becomes empty. -/
theorem C9_sessions_nonempty :
    ∀ (reg : Mem.Registry), Mem.Reachable reg → ∀ e ∈ reg, e.2 ≠ [] := by
  intro reg h
  induction h with
  | empty => simp
  | upload sid it _ ih => exact Mem.mem_upload_ne_nil sid it _ ih
  | sweep now _ _ => exact Mem.mem_sweep_ne_nil now _

/-- C9 witness: after one upload into the empty registry, the (unique)
session's list is non-empty. -/
theorem C9_witness : ([Mem.itemW] : List Mem.FileItem) ≠ [] :=
  C9_sessions_nonempty (Mem.upload "s" Mem.itemW [])
    (Mem.Reachable.upload "s" Mem.itemW Mem.Reachable.empty)
    ("s", [Mem.itemW]) (by decide)

/-- C10: one cleanup tick of the LAN variant empties the whole store —
every session folder is removed unconditionally (the tick consults no age
or timestamp: `cleanupTick` does not even take a time), so no stored file
is reachable after the first tick following its upload and no item ever
survives a tick. -/
theorem C10_lan_tick_removes_everything :
    ∀ (dirs : Lan.DirState),
      Lan.cleanupTick dirs = [] ∧ ∀ d, Lan.lookupDir (Lan.cleanupTick dirs) d = none := by
  intro dirs
  have h : Lan.cleanupTick dirs = [] := by
    show List.foldl (fun acc f => acc.filter fun d => !(d.1 == f)) dirs
        (dirs.map Prod.fst) = []
    exact Lan.foldl_filter_keys (dirs.map Prod.fst) dirs
      (fun d hd => List.mem_map_of_mem Prod.fst hd)
  exact ⟨h, fun d => by rw [h]; rfl⟩

end SmartShipping
